import Mathlib

/-!
# ScrimsBot store: a shallow embedding of `src/database.py`

The SQLite-backed store of the ScrimsBot repository is embedded as a pure
state machine.  The database state is a record of row lists (one list per
table, kept in rowid/insertion order, which is the order SQLite returns rows
in for the unordered `SELECT`s of the source) together with the
`AUTOINCREMENT` counters.  Each store operation of `database.py` becomes a
function `DB → ... → DB × result`.

Randomness (`random.choice` in `generate_unique_id`) is modelled by an extra
parameter `k : Nat` selecting an element of the list of available ids; all
theorems quantify over `k`, so they cover every draw the Python code can make.

Python's `sqlite3` module runs every write inside an implicit transaction
that only becomes visible at `conn.commit()`; an exception raised before the
commit leaves the database unchanged (the uncommitted statements are rolled
back when the connection is discarded).  Branches of the embedding in which
the source raises before committing therefore return the state unchanged.
-/

/-- A row of the `players` table: `id TEXT PRIMARY KEY`,
`discord_id INTEGER NOT NULL UNIQUE`, `ingame_name TEXT` (nullable). -/
structure Player where
  id : String
  discord_id : Int
  ingame_name : Option String
deriving DecidableEq, Repr

/-- A row of the `seasons` table: `id INTEGER PRIMARY KEY AUTOINCREMENT`,
`name TEXT NOT NULL UNIQUE`, `is_active BOOLEAN NOT NULL`. -/
structure Season where
  id : Nat
  name : String
  is_active : Bool
deriving DecidableEq, Repr

/-- A row of the `teams` table: `id INTEGER PRIMARY KEY AUTOINCREMENT`,
`name TEXT NOT NULL`, `season_id INTEGER`. -/
structure Team where
  id : Nat
  name : String
  season_id : Nat
deriving DecidableEq, Repr

/-- A row of the `team_members` table: `PRIMARY KEY (team_id, player_id)`. -/
structure TeamMember where
  team_id : Nat
  player_id : String
deriving DecidableEq, Repr

/-- A row of the `match_results` table. -/
structure MatchResult where
  id : Nat
  season_id : Nat
  player_id : String
  kills : Int
  deaths : Int
  assists : Int
deriving DecidableEq, Repr

/-- The whole database: one list per table, in rowid order, plus the next
`AUTOINCREMENT` value of each integer-keyed table. -/
structure DB where
  seasons : List Season
  players : List Player
  teams : List Team
  team_members : List TeamMember
  match_results : List MatchResult
  next_season_id : Nat
  next_team_id : Nat
  next_match_id : Nat
deriving Repr

/-- The freshly created database (`create_tables`): all tables empty,
`AUTOINCREMENT` counters starting at 1. -/
def DB.empty : DB := ⟨[], [], [], [], [], 1, 1, 1⟩

/-- Python's `f"{new_id:03d}"`: decimal rendering zero-padded to width 3. -/
def pad3 (n : Nat) : String :=
  if n < 10 then "00" ++ toString n
  else if n < 100 then "0" ++ toString n
  else toString n

/-- Python's `int(...)` restricted to the nonempty decimal digit strings the
store assigns as player ids (on any other string `int` raises, modelled as
`none`).  Defined by structural recursion over the character list so that it
evaluates in the kernel. -/
def strToNat (s : String) : Option Nat :=
  if s.data ≠ [] ∧ s.data.all Char.isDigit then
    some (s.data.foldl (fun n c => n * 10 + (c.toNat - 48)) 0)
  else none

/-- `{int(row['id']) for row in cursor.fetchall()}` over `SELECT id FROM
players`: the set of numeric values of assigned player ids (a Python set,
hence a `Finset`). -/
def assignedIds (db : DB) : Finset Nat :=
  (db.players.filterMap (fun p => strToNat p.id)).toFinset

/-- `list(all_possible_ids - assigned_ids)` with `all_possible_ids =
set(range(1000))`.  Python materialises the set difference in an unspecified
order; we fix the ascending order (theorems quantify over the choice index,
so every element remains reachable). -/
def availableIds (db : DB) : List Nat :=
  ((Finset.range 1000) \ assignedIds db).sort (· ≤ ·)

/-- `generate_unique_id`: `None` when the pool is exhausted, otherwise the
zero-padded rendering of `random.choice(available_ids)` — the choice is
modelled by the index `k` (taken modulo the list length). -/
def generate_unique_id (db : DB) (k : Nat) : Option String :=
  let avail := availableIds db
  if avail.isEmpty then none
  else some (pad3 (avail.getD (k % avail.length) 0))

/-- Result of `add_player_on_join`: `None` (user already exists), `"FULL"`,
or the newly assigned id string. -/
inductive JoinResult where
  | alreadyExists
  | full
  | newId (id : String)
deriving DecidableEq, Repr

/-- The id carried by a successful `JoinResult`. -/
def JoinResult.newIdOf : JoinResult → Option String
  | .newId s => some s
  | _ => none

/-- `add_player_on_join(discord_id)`: returns `alreadyExists` when a player
row with this `discord_id` exists, `full` when `generate_unique_id` finds no
free id, and otherwise inserts `(new_id, discord_id)` (with NULL
`ingame_name`) and returns the id. -/
def add_player_on_join (db : DB) (discord_id : Int) (k : Nat) : DB × JoinResult :=
  if db.players.any (fun p => p.discord_id == discord_id) then
    (db, .alreadyExists)
  else
    match generate_unique_id db k with
    | none => (db, .full)
    | some nid =>
        ({ db with players := db.players ++ [⟨nid, discord_id, none⟩] }, .newId nid)

/-- `set_ingame_name(discord_id, ingame_name)`: `UPDATE players SET
ingame_name = ? WHERE discord_id = ?`; returns `cursor.rowcount > 0`. -/
def set_ingame_name (db : DB) (discord_id : Int) (name : String) : DB × Bool :=
  ({ db with
      players := db.players.map (fun p =>
        if p.discord_id == discord_id then { p with ingame_name := some name } else p) },
   db.players.any (fun p => p.discord_id == discord_id))

/-- Outcome of `create_season`.  The source does not catch the
`sqlite3.IntegrityError` raised by the `INSERT` when `name` violates the
UNIQUE constraint, so on a duplicate name the exception escapes the function;
the earlier `UPDATE seasons SET is_active = 0` was never committed and is
rolled back, leaving the state unchanged. -/
inductive CreateSeasonOutcome where
  | created
  | integrityError
deriving DecidableEq, Repr

/-- Whether the outcome reaches the caller as a raised exception rather than
a normal return value. -/
def CreateSeasonOutcome.isException : CreateSeasonOutcome → Bool
  | .created => false
  | .integrityError => true

/-- `create_season(name)`: deactivates every season, then inserts an active
season named `name` with the next autoincrement id, and commits.  On a
duplicate name the insert raises before the commit (see
`CreateSeasonOutcome`), so the state is returned unchanged. -/
def create_season (db : DB) (name : String) : DB × CreateSeasonOutcome :=
  if db.seasons.any (fun s => s.name == name) then
    (db, .integrityError)
  else
    ({ db with
        seasons := (db.seasons.map (fun s => { s with is_active := false }))
          ++ [⟨db.next_season_id, name, true⟩],
        next_season_id := db.next_season_id + 1 },
     .created)

/-- `get_active_season()`: `fetchone` of `SELECT * FROM seasons WHERE
is_active = 1` — the first active season in rowid order, if any. -/
def get_active_season (db : DB) : Option Season :=
  (db.seasons.filter (fun s => s.is_active)).head?

/-- `delete_season(name)`: looks up the season id by name (`fetchone`), and
if found deletes its match results, the memberships of its teams, its teams,
and the season row itself; returns whether a season was found. -/
def delete_season (db : DB) (name : String) : DB × Bool :=
  match db.seasons.find? (fun s => s.name == name) with
  | none => (db, false)
  | some s =>
      let sid := s.id
      let delTeamIds := (db.teams.filter (fun t => t.season_id == sid)).map (fun t => t.id)
      ({ db with
          match_results := db.match_results.filter (fun mr => !(mr.season_id == sid)),
          team_members := db.team_members.filter (fun tm => !(delTeamIds.contains tm.team_id)),
          teams := db.teams.filter (fun t => !(t.season_id == sid)),
          seasons := db.seasons.filter (fun s2 => !(s2.id == sid)) },
       true)

/-- `create_team(name, season_id)`: plain insert with the next autoincrement
team id. -/
def create_team (db : DB) (name : String) (season_id : Nat) : DB :=
  { db with
      teams := db.teams ++ [⟨db.next_team_id, name, season_id⟩],
      next_team_id := db.next_team_id + 1 }

/-- Result strings of `assign_player_to_team`. -/
inductive AssignResult where
  | success
  | alreadyInTeam
  | teamFull
  | teamNotFound
deriving DecidableEq, Repr

/-- `assign_player_to_team(player_id, team_name, season_id)`: resolves the
team by `(name, season_id)` (`fetchone`, i.e. first match); counts its
memberships; if below 5, inserts — the PRIMARY KEY `(team_id, player_id)`
makes the insert raise `sqlite3.IntegrityError` (caught, yielding
`ALREADY_IN_TEAM`) when the pair is already present. -/
def assign_player_to_team (db : DB) (player_id team_name : String) (season_id : Nat) :
    DB × AssignResult :=
  match db.teams.find? (fun t => t.name == team_name && t.season_id == season_id) with
  | none => (db, .teamNotFound)
  | some t =>
      let member_count := (db.team_members.filter (fun tm => tm.team_id == t.id)).length
      if member_count < 5 then
        if db.team_members.any (fun tm => tm.team_id == t.id && tm.player_id == player_id) then
          (db, .alreadyInTeam)
        else
          ({ db with team_members := db.team_members ++ [⟨t.id, player_id⟩] }, .success)
      else
        (db, .teamFull)

/-- `unassign_player_from_team(player_id, team_name, season_id)`: resolves
the team; deletes the membership row; returns `cursor.rowcount > 0`, i.e.
whether the pair was present. -/
def unassign_player_from_team (db : DB) (player_id team_name : String) (season_id : Nat) :
    DB × Bool :=
  match db.teams.find? (fun t => t.name == team_name && t.season_id == season_id) with
  | none => (db, false)
  | some t =>
      ({ db with
          team_members := db.team_members.filter (fun tm =>
            !(tm.team_id == t.id && tm.player_id == player_id)) },
       db.team_members.any (fun tm => tm.team_id == t.id && tm.player_id == player_id))

/-- One entry of the `results` argument of `record_match`:
`{player_id, kills, deaths, assists}`. -/
structure MatchEntry where
  player_id : String
  kills : Int
  deaths : Int
  assists : Int
deriving DecidableEq, Repr

/-- The rows the `record_match` loop inserts: one `match_results` row per
entry, ids counting up from `nextId`, all tagged `sid`. -/
def insertResults (sid : Nat) (nextId : Nat) : List MatchEntry → List MatchResult
  | [] => []
  | r :: rs => ⟨nextId, sid, r.player_id, r.kills, r.deaths, r.assists⟩ :: insertResults sid (nextId + 1) rs

/-- `record_match(season_id, results)`: inserts one row per entry and commits
once after the loop. -/
def record_match (db : DB) (sid : Nat) (results : List MatchEntry) : DB :=
  { db with
      match_results := db.match_results ++ insertResults sid db.next_match_id results,
      next_match_id := db.next_match_id + results.length }

/-- A run of `record_match` in which some entry may be malformed (modelled as
`none`) and make its `cursor.execute` raise.  The single `conn.commit()`
sits after the loop, so an exception anywhere in the loop aborts before
anything was committed and the implicit transaction is rolled back: the
state is returned unchanged, together with `false`. -/
def record_match_attempt (db : DB) (sid : Nat) (results : List (Option MatchEntry)) :
    DB × Bool :=
  if results.all (fun r => r.isSome) then
    (record_match db sid (results.filterMap id), true)
  else
    (db, false)

/-- A row of `get_player_performance`. -/
structure PerfRow where
  season_name : String
  total_kills : Int
  total_deaths : Int
  total_assists : Int
deriving DecidableEq, Repr

/-- The joined rows of the `get_player_performance` query before grouping:
`match_results mr JOIN players p ON mr.player_id = p.id JOIN seasons s ON
mr.season_id = s.id WHERE p.ingame_name = ?` — each match row paired with
every matching player row and season row (inner join). -/
def perfRows (db : DB) (ing : String) : List (Season × MatchResult) :=
  db.match_results.flatMap (fun mr =>
    (db.players.filter (fun p => p.id == mr.player_id && p.ingame_name == some ing)).flatMap
      (fun _ => (db.seasons.filter (fun s => s.id == mr.season_id)).map (fun s => (s, mr))))

/-- The `GROUP BY s.name ORDER BY s.id` keys of the performance query: the
distinct season names among the joined rows, in ascending order of season
id (dedup order is immaterial: season names are unique under the schema's
UNIQUE constraint). -/
def perfGroupNames (db : DB) (ing : String) : List String :=
  (((db.seasons.mergeSort (fun a b => a.id ≤ b.id)).map (fun s => s.name)).dedup).filter
    (fun nm => (perfRows db ing).any (fun x => x.1.name == nm))

/-- `get_player_performance(ingame_name)`: per season name, the sums of
kills, deaths and assists of the joined rows, ordered by season id. -/
def get_player_performance (db : DB) (ing : String) : List PerfRow :=
  (perfGroupNames db ing).map (fun nm =>
    let grp := (perfRows db ing).filter (fun x => x.1.name == nm)
    ⟨nm, (grp.map (fun x => x.2.kills)).sum, (grp.map (fun x => x.2.deaths)).sum,
      (grp.map (fun x => x.2.assists)).sum⟩)

/-- A row of `get_leaderboard`. -/
structure LbRow where
  ingame_name : String
  total_kills : Int
  total_deaths : Int
deriving DecidableEq, Repr

/-- The joined rows of the `get_leaderboard` query: match rows of season
`sid` paired with every matching player row whose `ingame_name` is not
NULL. -/
def lbRows (db : DB) (sid : Nat) : List (Player × MatchResult) :=
  db.match_results.flatMap (fun mr =>
    if mr.season_id == sid then
      (db.players.filter (fun p => p.id == mr.player_id && p.ingame_name.isSome)).map
        (fun p => (p, mr))
    else [])

/-- The `GROUP BY p.ingame_name` keys: the distinct non-null names among the
joined rows (their relative order is immaterial: the final `ORDER BY`
re-sorts the produced rows). -/
def lbNames (db : DB) (sid : Nat) : List String :=
  ((lbRows db sid).filterMap (fun x => x.1.ingame_name)).dedup

/-- The K/D value `CAST(SUM(kills) AS REAL) / SUM(deaths)` used by the
`ORDER BY`, as an exact rational. -/
def LbRow.ratio (r : LbRow) : ℚ := (r.total_kills : ℚ) / (r.total_deaths : ℚ)

/-- `get_leaderboard()`: empty when no season is active; otherwise groups
the active season's match rows by non-null `ingame_name`, keeps the groups
with `SUM(deaths) > 0` (`HAVING`), and sorts by kills/deaths descending. -/
def get_leaderboard (db : DB) : List LbRow :=
  match get_active_season db with
  | none => []
  | some season =>
      let rows := (lbNames db season.id).map (fun nm =>
        let grp := (lbRows db season.id).filter (fun x => x.1.ingame_name == some nm)
        (⟨nm, (grp.map (fun x => x.2.kills)).sum, (grp.map (fun x => x.2.deaths)).sum⟩ : LbRow))
      (rows.filter (fun r => 0 < r.total_deaths)).mergeSort
        (fun a b => decide (b.ratio ≤ a.ratio))

/-- All player ids are well formed: each is the zero-padded rendering of a
pool number.  This holds in every reachable state (only
`add_player_on_join` inserts players). -/
def IdsWF (db : DB) : Prop := ∀ p ∈ db.players, ∃ n, n < 1000 ∧ p.id = pad3 n

/-- Invariant of the `players` table maintained by the store: every id is a
padded pool number (`IdsWF`) and the TEXT PRIMARY KEY makes ids distinct. -/
def PlayersWF (db : DB) : Prop := IdsWF db ∧ (db.players.map (fun p => p.id)).Nodup

/-- A sequence of `add_player_on_join` calls, each with its discord id and
its random draw index; returns the final state and the list of results in
call order. -/
def runJoins : DB → List (Int × Nat) → DB × List JoinResult
  | db, [] => (db, [])
  | db, c :: rest =>
      let step := add_player_on_join db c.1 c.2
      let out := runJoins step.1 rest
      (out.1, step.2 :: out.2)

/-- All states reachable from the fresh database by store operations. -/
inductive Reachable : DB → Prop
  | empty : Reachable DB.empty
  | join (db : DB) (d : Int) (k : Nat) :
      Reachable db → Reachable (add_player_on_join db d k).1
  | set_name (db : DB) (d : Int) (nm : String) :
      Reachable db → Reachable (set_ingame_name db d nm).1
  | new_season (db : DB) (nm : String) :
      Reachable db → Reachable (create_season db nm).1
  | del_season (db : DB) (nm : String) :
      Reachable db → Reachable (delete_season db nm).1
  | new_team (db : DB) (nm : String) (sid : Nat) :
      Reachable db → Reachable (create_team db nm sid)
  | assign (db : DB) (pid nm : String) (sid : Nat) :
      Reachable db → Reachable (assign_player_to_team db pid nm sid).1
  | unassign (db : DB) (pid nm : String) (sid : Nat) :
      Reachable db → Reachable (unassign_player_from_team db pid nm sid).1
  | rec_match (db : DB) (sid : Nat) (rs : List MatchEntry) :
      Reachable db → Reachable (record_match db sid rs)

/-- Spec-side (for refinement comparison): whether some player row whose
`ingame_name` is `ing` carries the id `pid`. -/
def ownedName (players : List Player) (ing : String) (pid : String) : Bool :=
  players.any (fun p => p.id == pid && p.ingame_name == some ing)

/-- Spec-side (for refinement comparison): the `match_results` rows of
season `sid` belonging to (any) player named `ing` — the rows whose sums the
spec says `performance` and `leaderboard` must return. -/
def playerSeasonRows (db : DB) (ing : String) (sid : Nat) : List MatchResult :=
  db.match_results.filter (fun mr => mr.season_id == sid && ownedName db.players ing mr.player_id)

/-- A small populated state used to instantiate theorems: one active season,
two players sharing the in-game name "Ace", one unnamed player, and one
match row for each player. -/
def sampleDB : DB :=
  ⟨[⟨1, "S", true⟩],
    [⟨"001", 42, some "Ace"⟩, ⟨"002", 43, some "Ace"⟩, ⟨"003", 44, none⟩],
    [], [],
    [⟨1, 1, "001", 10, 2, 3⟩, ⟨2, 1, "002", 4, 1, 0⟩, ⟨3, 1, "003", 7, 5, 1⟩],
    2, 1, 4⟩

/-! ## Basic facts about the id pool -/

set_option maxRecDepth 100000 in
set_option maxHeartbeats 1000000 in
/-- Python's `int` reads back exactly the number that `f"{n:03d}"` printed,
for every `n` in the pool. -/
theorem strToNat_pad3 : ∀ n < 1000, strToNat (pad3 n) = some n := by decide

theorem pad3_inj {a b : Nat} (ha : a < 1000) (hb : b < 1000) (h : pad3 a = pad3 b) :
    a = b := by
  have h1 := strToNat_pad3 a ha
  have h2 := strToNat_pad3 b hb
  rw [h, h2] at h1
  exact (Option.some.inj h1).symm

theorem mem_assignedIds {db : DB} {m : Nat} :
    m ∈ assignedIds db ↔ ∃ p ∈ db.players, strToNat p.id = some m := by
  simp [assignedIds, List.mem_filterMap]

theorem mem_availableIds {db : DB} {m : Nat} :
    m ∈ availableIds db ↔ m < 1000 ∧ m ∉ assignedIds db := by
  simp [availableIds, Finset.mem_sort, Finset.mem_sdiff, Finset.mem_range]


theorem assignedIds_card_le (db : DB) : (assignedIds db).card ≤ db.players.length := by
  calc (assignedIds db).card ≤ (db.players.filterMap (fun p => strToNat p.id)).length :=
        List.toFinset_card_le _
    _ ≤ db.players.length := List.length_filterMap_le _ _

/-- While fewer than 1000 players exist, the pool is not exhausted. -/
theorem availableIds_ne_nil {db : DB} (h : db.players.length < 1000) :
    availableIds db ≠ [] := by
  intro hnil
  have hsub : Finset.range 1000 ⊆ assignedIds db := by
    intro m hm
    by_contra hm2
    have hmem : m ∈ availableIds db :=
      mem_availableIds.mpr ⟨Finset.mem_range.mp hm, hm2⟩
    rw [hnil] at hmem
    exact (List.not_mem_nil m) hmem
  have h1 : (1000 : Nat) ≤ (assignedIds db).card := by
    simpa using Finset.card_le_card hsub
  have h2 := assignedIds_card_le db
  omega

/-- Under `IdsWF`, membership of a padded number in the assigned-numeral set
is membership of its padded string among the player ids. -/
theorem mem_assignedIds_iff_pad3 {db : DB} (hwf : IdsWF db) {m : Nat} (hm : m < 1000) :
    m ∈ assignedIds db ↔ pad3 m ∈ db.players.map (fun p => p.id) := by
  constructor
  · rintro h
    rcases mem_assignedIds.mp h with ⟨p, hp, hparse⟩
    rcases hwf p hp with ⟨n, hn, hid⟩
    have : strToNat p.id = some n := by rw [hid]; exact strToNat_pad3 n hn
    rw [this] at hparse
    have hnm : n = m := Option.some.inj hparse
    subst hnm
    exact List.mem_map.mpr ⟨p, hp, hid⟩
  · intro h
    rcases List.mem_map.mp h with ⟨p, hp, hid⟩
    exact mem_assignedIds.mpr ⟨p, hp, by rw [hid]; exact strToNat_pad3 m hm⟩

/-- When the pool is not empty, `generate_unique_id` returns the padded form
of some still-unassigned pool number. -/
theorem generate_unique_id_spec {db : DB} (k : Nat) (h : availableIds db ≠ []) :
    ∃ n, n < 1000 ∧ n ∉ assignedIds db ∧ generate_unique_id db k = some (pad3 n) := by
  have hlen : 0 < (availableIds db).length := List.length_pos.mpr h
  set n := (availableIds db).getD (k % (availableIds db).length) 0 with hn
  have hmem : n ∈ availableIds db := by
    rw [hn, List.getD_eq_getElem _ _ (Nat.mod_lt _ hlen)]
    exact List.getElem_mem _
  rcases mem_availableIds.mp hmem with ⟨h1, h2⟩
  refine ⟨n, h1, h2, ?_⟩
  simp only [generate_unique_id]
  rw [if_neg (by simpa [List.isEmpty_iff] using h)]

/-- When every pool number is assigned, `generate_unique_id` returns
`None`. -/
theorem generate_unique_id_none {db : DB} (k : Nat) (h : availableIds db = []) :
    generate_unique_id db k = none := by
  simp only [generate_unique_id]
  rw [if_pos (by simpa [List.isEmpty_iff] using h)]

/-! ## Stepping `add_player_on_join` -/


theorem PlayersWF.length_le {db : DB} (hwf : PlayersWF db) : db.players.length ≤ 1000 := by
  classical
  have h1 : (db.players.map (fun p => p.id)).toFinset.card = db.players.length := by
    rw [List.toFinset_card_of_nodup hwf.2, List.length_map]
  have h2 : (db.players.map (fun p => p.id)).toFinset ⊆ (Finset.range 1000).image pad3 := by
    intro s hs
    rcases List.mem_map.mp (List.mem_toFinset.mp hs) with ⟨p, hp, hid⟩
    rcases hwf.1 p hp with ⟨n, hn, hpad⟩
    exact Finset.mem_image.mpr ⟨n, Finset.mem_range.mpr hn, by rw [← hid, hpad]⟩
  have h3 := Finset.card_le_card h2
  have h4 : ((Finset.range 1000).image pad3).card ≤ 1000 := by
    simpa using Finset.card_image_le (s := Finset.range 1000) (f := pad3)
  omega

/-- With 1000 players present (all ids well formed and distinct), every pool
number is taken. -/
theorem availableIds_eq_nil {db : DB} (hwf : PlayersWF db) (hlen : db.players.length = 1000) :
    availableIds db = [] := by
  classical
  have h1 : (db.players.map (fun p => p.id)).toFinset.card = 1000 := by
    rw [List.toFinset_card_of_nodup hwf.2, List.length_map, hlen]
  have h2 : (db.players.map (fun p => p.id)).toFinset ⊆ (Finset.range 1000).image pad3 := by
    intro s hs
    rcases List.mem_map.mp (List.mem_toFinset.mp hs) with ⟨p, hp, hid⟩
    rcases hwf.1 p hp with ⟨n, hn, hpad⟩
    exact Finset.mem_image.mpr ⟨n, Finset.mem_range.mpr hn, by rw [← hid, hpad]⟩
  have h4 : ((Finset.range 1000).image pad3).card ≤ 1000 := by
    simpa using Finset.card_image_le (s := Finset.range 1000) (f := pad3)
  have hST : (db.players.map (fun p => p.id)).toFinset = (Finset.range 1000).image pad3 :=
    Finset.eq_of_subset_of_card_le h2 (by omega)
  apply List.eq_nil_iff_forall_not_mem.mpr
  intro m hmem
  rcases mem_availableIds.mp hmem with ⟨hm1000, hnot⟩
  apply hnot
  apply (mem_assignedIds_iff_pad3 hwf.1 hm1000).mpr
  have hT : pad3 m ∈ (Finset.range 1000).image pad3 :=
    Finset.mem_image.mpr ⟨m, Finset.mem_range.mpr hm1000, rfl⟩
  rw [← hST] at hT
  exact List.mem_toFinset.mp hT

theorem add_player_already {db : DB} {d : Int} (k : Nat)
    (h : ∃ p ∈ db.players, p.discord_id = d) :
    add_player_on_join db d k = (db, .alreadyExists) := by
  simp only [add_player_on_join]
  rw [if_pos]
  simpa [List.any_eq_true, beq_iff_eq] using h

theorem add_player_new {db : DB} {d : Int} (k : Nat) (hwf : IdsWF db)
    (hd : ∀ p ∈ db.players, p.discord_id ≠ d) (hlen : db.players.length < 1000) :
    ∃ n, n < 1000 ∧ pad3 n ∉ db.players.map (fun p => p.id) ∧
      add_player_on_join db d k =
        ({ db with players := db.players ++ [⟨pad3 n, d, none⟩] }, .newId (pad3 n)) := by
  obtain ⟨n, hn, hna, hgen⟩ := generate_unique_id_spec k (availableIds_ne_nil hlen)
  refine ⟨n, hn, ?_, ?_⟩
  · intro hmem
    exact hna ((mem_assignedIds_iff_pad3 hwf hn).mpr hmem)
  · have hany : ¬ (db.players.any (fun p => p.discord_id == d) = true) := by
      simp only [List.any_eq_true, beq_iff_eq]
      push_neg
      exact hd
    simp only [add_player_on_join]
    rw [if_neg hany, hgen]

theorem add_player_full_case {db : DB} {d : Int} (k : Nat) (hwf : PlayersWF db)
    (hd : ∀ p ∈ db.players, p.discord_id ≠ d) (hlen : db.players.length = 1000) :
    add_player_on_join db d k = (db, .full) := by
  have hany : ¬ (db.players.any (fun p => p.discord_id == d) = true) := by
    simp only [List.any_eq_true, beq_iff_eq]
    push_neg
    exact hd
  simp only [add_player_on_join]
  rw [if_neg hany, generate_unique_id_none k (availableIds_eq_nil hwf hlen)]

theorem PlayersWF_insert {db : DB} {d : Int} {n : Nat} (hwf : PlayersWF db) (hn : n < 1000)
    (hnotin : pad3 n ∉ db.players.map (fun p => p.id)) :
    PlayersWF { db with players := db.players ++ [⟨pad3 n, d, none⟩] } := by
  constructor
  · intro p hp
    rcases List.mem_append.mp hp with h | h
    · exact hwf.1 p h
    · have : p = ⟨pad3 n, d, none⟩ := by simpa using h
      exact ⟨n, hn, by rw [this]⟩
  · simp only [List.map_append, List.map_cons, List.map_nil]
    rw [List.nodup_append]
    exact ⟨hwf.2, List.nodup_singleton _, by simpa using hnotin⟩

/-! ## Traces of `add_player_on_join` calls (claim C1) -/


theorem runJoins_spec (calls : List (Int × Nat)) : ∀ (db : DB), PlayersWF db →
    (calls.map Prod.fst).Nodup →
    (∀ c ∈ calls, ∀ p ∈ db.players, p.discord_id ≠ c.1) →
    PlayersWF (runJoins db calls).1 ∧
    (runJoins db calls).2.length = calls.length ∧
    (∀ s ∈ (runJoins db calls).2.filterMap JoinResult.newIdOf,
        (∃ n, n < 1000 ∧ s = pad3 n) ∧ s ∉ db.players.map (fun p => p.id)) ∧
    ((runJoins db calls).2.filterMap JoinResult.newIdOf).Nodup ∧
    (∀ i, i < calls.length → db.players.length + i < 1000 →
        ∃ s, (runJoins db calls).2[i]? = some (.newId s)) ∧
    (∀ i, i < calls.length → db.players.length + i = 1000 →
        (runJoins db calls).2[i]? = some .full) := by
  induction calls with
  | nil =>
      intro db hwf _ _
      refine ⟨hwf, rfl, ?_, ?_, ?_, ?_⟩ <;> simp [runJoins]
  | cons c rest ih =>
      intro db hwf hnodup hfresh
      obtain ⟨d, k⟩ := c
      have hnodup2 : d ∉ rest.map Prod.fst ∧ (rest.map Prod.fst).Nodup := by
        rw [List.map_cons] at hnodup
        exact List.nodup_cons.mp hnodup
      have hdfresh : ∀ p ∈ db.players, p.discord_id ≠ d := fun p hp =>
        hfresh (d, k) (by simp) p hp
      have hle := hwf.length_le
      by_cases hlen : db.players.length < 1000
      · obtain ⟨n, hn, hnin, heq⟩ := add_player_new k hwf.1 hdfresh hlen
        have hwf1 : PlayersWF { db with players := db.players ++ [⟨pad3 n, d, none⟩] } :=
          PlayersWF_insert hwf hn hnin
        have hfresh1 : ∀ c2 ∈ rest, ∀ p ∈ ({ db with
            players := db.players ++ [⟨pad3 n, d, none⟩] } : DB).players,
            p.discord_id ≠ c2.1 := by
          intro c2 hc2 p hp
          rcases List.mem_append.mp hp with h | h
          · exact hfresh c2 (by simp [hc2]) p h
          · have hpd : p = ⟨pad3 n, d, none⟩ := by simpa using h
            rw [hpd]
            intro hcontra
            apply hnodup2.1
            have : c2.1 ∈ rest.map Prod.fst := List.mem_map.mpr ⟨c2, hc2, rfl⟩
            rw [← hcontra] at this
            exact this
        obtain ⟨ih1, ih2, ih3, ih4, ih5, ih6⟩ := ih _ hwf1 hnodup2.2 hfresh1
        have hunf : runJoins db ((d, k) :: rest) =
            ((runJoins { db with players := db.players ++ [⟨pad3 n, d, none⟩] } rest).1,
              .newId (pad3 n) ::
                (runJoins { db with players := db.players ++ [⟨pad3 n, d, none⟩] } rest).2) := by
          simp only [runJoins, heq]
        rw [hunf]
        refine ⟨ih1, by simpa using ih2, ?_, ?_, ?_, ?_⟩
        · intro s hs
          simp only [List.filterMap_cons, JoinResult.newIdOf, List.mem_cons] at hs
          rcases hs with rfl | hs
          · exact ⟨⟨n, hn, rfl⟩, hnin⟩
          · obtain ⟨hex, hnotin⟩ := ih3 s hs
            refine ⟨hex, fun hmem => hnotin ?_⟩
            simp only [List.map_append]
            exact List.mem_append_left _ hmem
        · simp only [List.filterMap_cons, JoinResult.newIdOf]
          rw [List.nodup_cons]
          refine ⟨fun hmem => ?_, ih4⟩
          obtain ⟨_, hnotin⟩ := ih3 _ hmem
          apply hnotin
          simp
        · intro i hi hsmall
          cases i with
          | zero => exact ⟨pad3 n, by simp⟩
          | succ j =>
              rw [List.getElem?_cons_succ]
              exact ih5 j (by simpa using hi) (by simp; omega)
        · intro i hi hfull
          cases i with
          | zero => omega
          | succ j =>
              rw [List.getElem?_cons_succ]
              exact ih6 j (by simpa using hi) (by simp; omega)
      · have hlen2 : db.players.length = 1000 := by omega
        have heq := add_player_full_case k hwf hdfresh hlen2
        have hfresh2 : ∀ c2 ∈ rest, ∀ p ∈ db.players, p.discord_id ≠ c2.1 := by
          intro c2 hc2 p hp
          exact hfresh c2 (by simp [hc2]) p hp
        obtain ⟨ih1, ih2, ih3, ih4, ih5, ih6⟩ := ih db hwf hnodup2.2 hfresh2
        have hunf : runJoins db ((d, k) :: rest) =
            ((runJoins db rest).1, .full :: (runJoins db rest).2) := by
          simp only [runJoins, heq]
        rw [hunf]
        refine ⟨ih1, by simpa using ih2, ?_, ?_, ?_, ?_⟩
        · intro s hs
          simp only [List.filterMap_cons, JoinResult.newIdOf] at hs
          exact ih3 s hs
        · simp only [List.filterMap_cons, JoinResult.newIdOf]
          exact ih4
        · intro i hi hsmall
          omega
        · intro i hi hfull
          cases i with
          | zero => simp
          | succ j => omega

/-- **C1.** For every sequence of `add_player_on_join` calls with pairwise
distinct external (discord) ids, starting from the fresh database and for
every sequence of random draws: the ids returned to successful callers are
pairwise distinct and each is the zero-padded rendering of a pool number
below 1000; every one of the first 1000 calls succeeds, and the 1001st
caller receives the pool-exhausted result. -/
theorem ensure_player_pool (calls : List (Int × Nat))
    (hnodup : (calls.map Prod.fst).Nodup) :
    ((runJoins DB.empty calls).2.filterMap JoinResult.newIdOf).Nodup ∧
    (∀ s ∈ (runJoins DB.empty calls).2.filterMap JoinResult.newIdOf,
        ∃ n, n < 1000 ∧ s = pad3 n) ∧
    (∀ i, i < calls.length → i < 1000 →
        ∃ s, (runJoins DB.empty calls).2[i]? = some (.newId s)) ∧
    (1000 < calls.length → (runJoins DB.empty calls).2[1000]? = some .full) := by
  have hwf : PlayersWF DB.empty := by
    constructor
    · intro p hp
      simp [DB.empty] at hp
    · simp [DB.empty]
  have hfresh : ∀ c ∈ calls, ∀ p ∈ DB.empty.players, p.discord_id ≠ c.1 := by
    intro c hc p hp
    simp [DB.empty] at hp
  obtain ⟨_, _, h3, h4, h5, h6⟩ := runJoins_spec calls DB.empty hwf hnodup hfresh
  refine ⟨h4, fun s hs => (h3 s hs).1, ?_, ?_⟩
  · intro i hi hsmall
    refine h5 i hi ?_
    simp only [DB.empty, List.length_nil]
    omega
  · intro h
    refine h6 1000 h ?_
    simp [DB.empty]

/-- Witness for C1 at the concrete one-call sequence `[(1, 0)]`. -/
theorem ensure_player_pool_witness :
    ((runJoins DB.empty [((1 : Int), 0)]).2.filterMap JoinResult.newIdOf).Nodup ∧
    (∀ s ∈ (runJoins DB.empty [((1 : Int), 0)]).2.filterMap JoinResult.newIdOf,
        ∃ n, n < 1000 ∧ s = pad3 n) ∧
    (∀ i, i < ([((1 : Int), 0)] : List (Int × Nat)).length → i < 1000 →
        ∃ s, (runJoins DB.empty [((1 : Int), 0)]).2[i]? = some (.newId s)) ∧
    (1000 < ([((1 : Int), 0)] : List (Int × Nat)).length →
        (runJoins DB.empty [((1 : Int), 0)]).2[1000]? = some .full) :=
  ensure_player_pool [((1 : Int), 0)] (by simp)

/-- **C2.** `add_player_on_join`: when a player row already maps to the
discord id it returns the already-exists result and performs no mutation;
otherwise it returns the pool-exhausted result exactly when every one of the
1000 pool ids is already assigned, and whenever some pool id is still
unassigned the call draws such an id from the currently-unassigned subset of
the padded `{0..999}` pool, inserts exactly that player row, and returns
that id. -/
theorem ensure_player_spec (db : DB) (d : Int) (k : Nat) (hwf : IdsWF db) :
    ((∃ p ∈ db.players, p.discord_id = d) →
        add_player_on_join db d k = (db, .alreadyExists)) ∧
    ((∀ p ∈ db.players, p.discord_id ≠ d) →
      (add_player_on_join db d k = (db, .full) ↔
          ∀ m, m < 1000 → pad3 m ∈ db.players.map (fun p => p.id)) ∧
      ((∃ m, m < 1000 ∧ pad3 m ∉ db.players.map (fun p => p.id)) →
        ∃ n, n < 1000 ∧ pad3 n ∉ db.players.map (fun p => p.id) ∧
          add_player_on_join db d k =
            ({ db with players := db.players ++ [⟨pad3 n, d, none⟩] },
             .newId (pad3 n)))) := by
  constructor
  · exact add_player_already k
  · intro hd
    have hany : ¬ (db.players.any (fun p => p.discord_id == d) = true) := by
      simp only [List.any_eq_true, beq_iff_eq]
      push_neg
      exact hd
    by_cases hav : availableIds db = []
    · have hall : ∀ m, m < 1000 → pad3 m ∈ db.players.map (fun p => p.id) := by
        intro m hm
        have hnm : m ∉ availableIds db := by
          rw [hav]
          exact List.not_mem_nil m
        have hm2 : m ∈ assignedIds db := by
          by_contra h2
          exact hnm (mem_availableIds.mpr ⟨hm, h2⟩)
        exact (mem_assignedIds_iff_pad3 hwf hm).mp hm2
      have heq : add_player_on_join db d k = (db, .full) := by
        simp only [add_player_on_join]
        rw [if_neg hany, generate_unique_id_none k hav]
      refine ⟨⟨fun _ => hall, fun _ => heq⟩, ?_⟩
      rintro ⟨m, hm, hnot⟩
      exact absurd (hall m hm) hnot
    · obtain ⟨n, hn, hna, hgen⟩ := generate_unique_id_spec k hav
      have hnotin : pad3 n ∉ db.players.map (fun p => p.id) := by
        intro hmem
        exact hna ((mem_assignedIds_iff_pad3 hwf hn).mpr hmem)
      have heq : add_player_on_join db d k =
          ({ db with players := db.players ++ [⟨pad3 n, d, none⟩] }, .newId (pad3 n)) := by
        simp only [add_player_on_join]
        rw [if_neg hany, hgen]
      refine ⟨⟨fun hfull => ?_, fun hall => ?_⟩, fun _ => ⟨n, hn, hnotin, heq⟩⟩
      · exact JoinResult.noConfusion (congrArg Prod.snd (heq.symm.trans hfull))
      · exact absurd ((mem_assignedIds_iff_pad3 hwf hn).mpr (hall n hn)) hna

/-- Witness for C2 at the fresh database, discord id 1, draw index 0. -/
theorem ensure_player_spec_witness :
    ((∃ p ∈ DB.empty.players, p.discord_id = 1) →
        add_player_on_join DB.empty 1 0 = (DB.empty, .alreadyExists)) ∧
    ((∀ p ∈ DB.empty.players, p.discord_id ≠ 1) →
      (add_player_on_join DB.empty 1 0 = (DB.empty, .full) ↔
          ∀ m, m < 1000 → pad3 m ∈ DB.empty.players.map (fun p => p.id)) ∧
      ((∃ m, m < 1000 ∧ pad3 m ∉ DB.empty.players.map (fun p => p.id)) →
        ∃ n, n < 1000 ∧ pad3 n ∉ DB.empty.players.map (fun p => p.id) ∧
          add_player_on_join DB.empty 1 0 =
            ({ DB.empty with players := DB.empty.players ++ [⟨pad3 n, 1, none⟩] },
             .newId (pad3 n)))) :=
  ensure_player_spec DB.empty 1 0 (by intro p hp; simp [DB.empty] at hp)

/-! ## Season lifecycle (claims C3, C7) -/

theorem add_player_seasons (db : DB) (d : Int) (k : Nat) :
    (add_player_on_join db d k).1.seasons = db.seasons := by
  simp only [add_player_on_join]
  split
  · rfl
  · split <;> rfl

theorem set_ingame_name_seasons (db : DB) (d : Int) (nm : String) :
    (set_ingame_name db d nm).1.seasons = db.seasons := rfl

theorem create_team_seasons (db : DB) (nm : String) (sid : Nat) :
    (create_team db nm sid).seasons = db.seasons := rfl

theorem record_match_seasons (db : DB) (sid : Nat) (rs : List MatchEntry) :
    (record_match db sid rs).seasons = db.seasons := rfl

theorem assign_player_seasons (db : DB) (pid nm : String) (sid : Nat) :
    (assign_player_to_team db pid nm sid).1.seasons = db.seasons := by
  simp only [assign_player_to_team]
  split
  · rfl
  · split
    · split <;> rfl
    · rfl

theorem unassign_player_seasons (db : DB) (pid nm : String) (sid : Nat) :
    (unassign_player_from_team db pid nm sid).1.seasons = db.seasons := by
  simp only [unassign_player_from_team]
  split <;> rfl

/-- On a fresh name, `create_season` takes the successful branch:
everything deactivated, one new active season appended. -/
theorem create_season_fresh (db : DB) (nm : String)
    (hfresh : ∀ s ∈ db.seasons, s.name ≠ nm) :
    create_season db nm =
      ({ db with
          seasons := (db.seasons.map (fun s => { s with is_active := false }))
            ++ [⟨db.next_season_id, nm, true⟩],
          next_season_id := db.next_season_id + 1 },
       .created) := by
  simp only [create_season]
  rw [if_neg]
  simp only [List.any_eq_true, beq_iff_eq]
  push_neg
  exact hfresh

/-- The active rows after a successful `create_season`: exactly the new
season. -/
theorem create_season_fresh_active (db : DB) (nm : String)
    (hfresh : ∀ s ∈ db.seasons, s.name ≠ nm) :
    (create_season db nm).1.seasons.filter (fun s => s.is_active) =
      [⟨db.next_season_id, nm, true⟩] := by
  rw [create_season_fresh db nm hfresh]
  simp [List.filter_append, List.filter_map, Function.comp_def]


theorem reachable_active_le (db : DB) (h : Reachable db) :
    (db.seasons.filter (fun s => s.is_active)).length ≤ 1 := by
  induction h with
  | empty => simp [DB.empty]
  | join db d k _ iha => rw [add_player_seasons]; exact iha
  | set_name db d nm _ iha => rw [set_ingame_name_seasons]; exact iha
  | new_season db nm _ iha =>
      by_cases hfresh : ∀ s ∈ db.seasons, s.name ≠ nm
      · rw [create_season_fresh_active db nm hfresh]
        simp
      · have hdup : db.seasons.any (fun s => s.name == nm) = true := by
          simp only [List.any_eq_true, beq_iff_eq]
          push_neg at hfresh
          exact hfresh
        simp only [create_season, hdup, if_true]
        exact iha
  | del_season db nm _ iha =>
      simp only [delete_season]
      split
      · exact iha
      · dsimp only
        calc ((db.seasons.filter (fun s2 => !(s2.id == _))).filter
                (fun s => s.is_active)).length
            ≤ (db.seasons.filter (fun s => s.is_active)).length :=
              List.Sublist.length_le
                (List.Sublist.filter _ (List.filter_sublist _))
          _ ≤ 1 := iha
  | new_team db nm sid _ iha => rw [create_team_seasons]; exact iha
  | assign db pid nm sid _ iha => rw [assign_player_seasons]; exact iha
  | unassign db pid nm sid _ iha => rw [unassign_player_seasons]; exact iha
  | rec_match db sid rs _ iha => rw [record_match_seasons]; exact iha

/-- **C3.** At most one season is active in every reachable state; and after
`create_season "S2"` following `create_season "S1"` (both names fresh),
`get_active_season` returns exactly the `"S2"` season — never both, never
none. -/
theorem single_active_season :
    (∀ db, Reachable db → (db.seasons.filter (fun s => s.is_active)).length ≤ 1) ∧
    (∀ db, Reachable db → (∀ s ∈ db.seasons, s.name ≠ "S1" ∧ s.name ≠ "S2") →
      ∃ s2, get_active_season (create_season (create_season db "S1").1 "S2").1 = some s2 ∧
        s2.name = "S2" ∧
        (create_season (create_season db "S1").1 "S2").1.seasons.filter
          (fun s => s.is_active) = [s2]) := by
  constructor
  · exact reachable_active_le
  · intro db _ hfresh
    have h1 : ∀ s ∈ db.seasons, s.name ≠ "S1" := fun s hs => (hfresh s hs).1
    have heq1 := create_season_fresh db "S1" h1
    have h2 : ∀ s ∈ (create_season db "S1").1.seasons, s.name ≠ "S2" := by
      rw [heq1]
      intro s hs
      rcases List.mem_append.mp hs with h | h
      · rcases List.mem_map.mp h with ⟨s0, hs0, hmap⟩
        rw [← hmap]
        exact (hfresh s0 hs0).2
      · have : s = ⟨db.next_season_id, "S1", true⟩ := by simpa using h
        rw [this]
        simp
    have hact := create_season_fresh_active _ "S2" h2
    refine ⟨⟨(create_season db "S1").1.next_season_id, "S2", true⟩, ?_, rfl, hact⟩
    simp only [get_active_season, hact]
    rfl

/-- Witness for C3: both conjuncts instantiated at the fresh database. -/
theorem single_active_season_witness :
    ((DB.empty.seasons.filter (fun s => s.is_active)).length ≤ 1) ∧
    (∃ s2, get_active_season (create_season (create_season DB.empty "S1").1 "S2").1 = some s2 ∧
      s2.name = "S2" ∧
      (create_season (create_season DB.empty "S1").1 "S2").1.seasons.filter
        (fun s => s.is_active) = [s2]) :=
  ⟨single_active_season.1 DB.empty Reachable.empty,
   single_active_season.2 DB.empty Reachable.empty
     (by intro s hs; simp [DB.empty] at hs)⟩

/-- **Counterexample to C7 as stated.** In the state after
`create_season "S1"`, a season named `"S1"` exists, yet the second
`create_season "S1"` terminates with the `IntegrityError` outcome — a raised
exception crossing the store boundary, not a normal (non-exception) Conflict
result. -/
theorem create_season_duplicate_cex :
    (∃ s ∈ (create_season DB.empty "S1").1.seasons, s.name = "S1") ∧
    (create_season (create_season DB.empty "S1").1 "S1").2.isException = true := by
  constructor
  · exact ⟨⟨1, "S1", true⟩, by simp [create_season, DB.empty], rfl⟩
  · rfl

/-- **C7 (amended).** Whenever a season with the requested name already
exists, `create_season` fails by raising `sqlite3.IntegrityError` — an
exception that escapes the store boundary, not a normal Conflict result —
and persists no mutation (nothing was committed). -/
theorem create_season_duplicate_spec (db : DB) (name : String)
    (h : ∃ s ∈ db.seasons, s.name = name) :
    create_season db name = (db, .integrityError) ∧
    (create_season db name).2.isException = true := by
  have hany : db.seasons.any (fun s => s.name == name) = true := by
    simp only [List.any_eq_true, beq_iff_eq]
    exact h
  have heq : create_season db name = (db, .integrityError) := by
    simp only [create_season, hany, if_true]
  refine ⟨heq, ?_⟩
  rw [heq]
  rfl

/-- Witness for the amended C7 at a concrete duplicate. -/
theorem create_season_duplicate_spec_witness :
    create_season (create_season DB.empty "S1").1 "S1" =
      ((create_season DB.empty "S1").1, .integrityError) ∧
    (create_season (create_season DB.empty "S1").1 "S1").2.isException = true :=
  create_season_duplicate_spec (create_season DB.empty "S1").1 "S1"
    ⟨⟨1, "S1", true⟩, by simp [create_season, DB.empty], rfl⟩

/-! ## Team roster management (claim C4) -/

theorem mem_team_members_iff {l : List TeamMember} {a : Nat} {b : String} :
    (⟨a, b⟩ : TeamMember) ∈ l ↔ ∃ tm ∈ l, tm.team_id = a ∧ tm.player_id = b := by
  constructor
  · intro h
    exact ⟨_, h, rfl, rfl⟩
  · rintro ⟨tm, hm, h1, h2⟩
    have htm : tm = ⟨a, b⟩ := by
      cases tm
      simp_all
    rwa [htm] at hm

/-- **Counterexample to C4 as stated.** In a state whose team (id 1) holds
exactly 5 members including the pair (1, "001"), a second
`assign_player_to_team` of that pair returns `TEAM_FULL`, not
`ALREADY_IN_TEAM`: the capacity check runs before the duplicate check, so
the AlreadyInTeam clause of the claim fails for pairs in a full team. -/
theorem assign_player_full_pair_cex :
    (⟨1, "001"⟩ : TeamMember) ∈ (⟨[], [], [⟨1, "A", 1⟩],
        [⟨1, "001"⟩, ⟨1, "002"⟩, ⟨1, "003"⟩, ⟨1, "004"⟩, ⟨1, "005"⟩], [], 1, 2, 1⟩ :
        DB).team_members ∧
    (assign_player_to_team (⟨[], [], [⟨1, "A", 1⟩],
        [⟨1, "001"⟩, ⟨1, "002"⟩, ⟨1, "003"⟩, ⟨1, "004"⟩, ⟨1, "005"⟩], [], 1, 2, 1⟩ :
        DB) "001" "A" 1).2 = .teamFull ∧
    (assign_player_to_team (⟨[], [], [⟨1, "A", 1⟩],
        [⟨1, "001"⟩, ⟨1, "002"⟩, ⟨1, "003"⟩, ⟨1, "004"⟩, ⟨1, "005"⟩], [], 1, 2, 1⟩ :
        DB) "001" "A" 1).2 ≠ .alreadyInTeam := by decide

/-- **C4 (amended).** `assign_player_to_team` resolves the team by
`(name, season_id)`; when none matches it returns TeamNotFound; when the
resolved team holds exactly 5 members it returns TeamFull and mutates
nothing (the count stays 5) — even when the pair is already present; when
the team is below capacity and the pair is present it returns AlreadyInTeam
and mutates nothing (the pair's row count stays 1); otherwise it inserts
the membership and returns Success. -/
theorem assign_player_spec (db : DB) (pid tname : String) (sid : Nat) :
    (db.teams.find? (fun t => t.name == tname && t.season_id == sid) = none →
      assign_player_to_team db pid tname sid = (db, .teamNotFound)) ∧
    (∀ t, db.teams.find? (fun t2 => t2.name == tname && t2.season_id == sid) = some t →
      (((db.team_members.filter (fun tm => tm.team_id == t.id)).length = 5 →
        assign_player_to_team db pid tname sid = (db, .teamFull) ∧
        ((assign_player_to_team db pid tname sid).1.team_members.filter
          (fun tm => tm.team_id == t.id)).length = 5) ∧
      ((db.team_members.filter (fun tm => tm.team_id == t.id)).length < 5 →
        (⟨t.id, pid⟩ : TeamMember) ∈ db.team_members →
        assign_player_to_team db pid tname sid = (db, .alreadyInTeam)) ∧
      ((db.team_members.filter (fun tm => tm.team_id == t.id)).length < 5 →
        (⟨t.id, pid⟩ : TeamMember) ∉ db.team_members →
        assign_player_to_team db pid tname sid =
          ({ db with team_members := db.team_members ++ [⟨t.id, pid⟩] }, .success)))) := by
  constructor
  · intro hnone
    simp only [assign_player_to_team, hnone]
  · intro t ht
    refine ⟨?_, ?_, ?_⟩
    · intro hfive
      have heq : assign_player_to_team db pid tname sid = (db, .teamFull) := by
        simp only [assign_player_to_team, ht]
        rw [if_neg]
        omega
      exact ⟨heq, by rw [heq]; exact hfive⟩
    · intro hlt hmem
      have hany : db.team_members.any
          (fun tm => tm.team_id == t.id && tm.player_id == pid) = true := by
        simp only [List.any_eq_true, Bool.and_eq_true, beq_iff_eq]
        rcases mem_team_members_iff.mp hmem with ⟨tm, h1, h2, h3⟩
        exact ⟨tm, h1, h2, h3⟩
      simp only [assign_player_to_team, ht]
      rw [if_pos hlt, if_pos hany]
    · intro hlt hmem
      have hany : ¬ (db.team_members.any
          (fun tm => tm.team_id == t.id && tm.player_id == pid) = true) := by
        simp only [List.any_eq_true, Bool.and_eq_true, beq_iff_eq]
        rintro ⟨tm, h1, h2, h3⟩
        exact hmem (mem_team_members_iff.mpr ⟨tm, h1, h2, h3⟩)
      simp only [assign_player_to_team, ht]
      rw [if_pos hlt, if_neg hany]

/-- Witness for the amended C4: inserting into an empty one-team roster
succeeds. -/
theorem assign_player_spec_witness :
    assign_player_to_team (⟨[], [], [⟨1, "A", 1⟩], [], [], 1, 2, 1⟩ : DB) "001" "A" 1 =
      ({ (⟨[], [], [⟨1, "A", 1⟩], [], [], 1, 2, 1⟩ : DB) with
          team_members := (⟨[], [], [⟨1, "A", 1⟩], [], [], 1, 2, 1⟩ : DB).team_members
            ++ [⟨1, "001"⟩] }, .success) :=
  ((assign_player_spec (⟨[], [], [⟨1, "A", 1⟩], [], [], 1, 2, 1⟩ : DB) "001" "A" 1).2
      ⟨1, "A", 1⟩ (by decide)).2.2 (by decide) (by decide)

/-! ## Match recording (claim C5) -/

theorem insertResults_length (sid : Nat) :
    ∀ (nid : Nat) (rs : List MatchEntry), (insertResults sid nid rs).length = rs.length
  | _, [] => rfl
  | nid, r :: rs => by
      simp only [insertResults, List.length_cons]
      rw [insertResults_length sid (nid + 1) rs]

theorem insertResults_season (sid : Nat) :
    ∀ (nid : Nat) (rs : List MatchEntry),
      ∀ mr ∈ insertResults sid nid rs, mr.season_id = sid
  | _, [], mr, h => absurd h (List.not_mem_nil mr)
  | nid, r :: rs, mr, h => by
      rcases List.mem_cons.mp h with h | h
      · rw [h]
      · exact insertResults_season sid (nid + 1) rs mr h

theorem insertResults_proj (sid : Nat) :
    ∀ (nid : Nat) (rs : List MatchEntry),
      (insertResults sid nid rs).map
        (fun mr => (⟨mr.player_id, mr.kills, mr.deaths, mr.assists⟩ : MatchEntry)) = rs
  | _, [] => rfl
  | nid, r :: rs => by
      simp only [insertResults, List.map_cons]
      rw [insertResults_proj sid (nid + 1) rs]

/-- **C5.** `record_match` appends exactly one `match_results` row per entry
of the batch, each tagged with the given season id and carrying the
submitted player/kills/deaths/assists, and the whole batch is committed
together: a run whose loop raises on a malformed entry commits nothing — the
state is unchanged, so no proper non-empty subset of the batch is ever
persisted. -/
theorem record_match_spec (db : DB) (sid : Nat) :
    (∀ rs : List MatchEntry,
      (record_match db sid rs).match_results =
        db.match_results ++ insertResults sid db.next_match_id rs ∧
      (insertResults sid db.next_match_id rs).length = rs.length ∧
      (∀ mr ∈ insertResults sid db.next_match_id rs, mr.season_id = sid) ∧
      (insertResults sid db.next_match_id rs).map
        (fun mr => (⟨mr.player_id, mr.kills, mr.deaths, mr.assists⟩ : MatchEntry)) = rs ∧
      (record_match db sid rs).players = db.players ∧
      (record_match db sid rs).seasons = db.seasons ∧
      (record_match db sid rs).teams = db.teams ∧
      (record_match db sid rs).team_members = db.team_members) ∧
    (∀ rs : List (Option MatchEntry), ¬ (rs.all (fun r => r.isSome) = true) →
      record_match_attempt db sid rs = (db, false)) := by
  constructor
  · intro rs
    exact ⟨rfl, insertResults_length sid _ rs, insertResults_season sid _ rs,
      insertResults_proj sid _ rs, rfl, rfl, rfl, rfl⟩
  · intro rs h
    simp only [record_match_attempt]
    rw [if_neg h]

/-- Witness for C5: a concrete two-entry batch and a failing batch. -/
theorem record_match_spec_witness :
    (record_match DB.empty 1 [⟨"001", 10, 2, 3⟩, ⟨"002", 4, 5, 6⟩]).match_results =
      DB.empty.match_results ++
        insertResults 1 DB.empty.next_match_id [⟨"001", 10, 2, 3⟩, ⟨"002", 4, 5, 6⟩] ∧
    record_match_attempt DB.empty 1 [some ⟨"001", 10, 2, 3⟩, none] = (DB.empty, false) :=
  ⟨((record_match_spec DB.empty 1).1 [⟨"001", 10, 2, 3⟩, ⟨"002", 4, 5, 6⟩]).1,
   (record_match_spec DB.empty 1).2 [some ⟨"001", 10, 2, 3⟩, none] (by decide)⟩

/-! ## Season deletion (claim C6) -/

/-- **C6.** `delete_season(name)` returns false exactly when no season with
that name exists, and then deletes nothing; the `players` table (ids
included) is never touched; and on success (season names being unique, as
the schema enforces) it removes the named season, all of its teams, all
memberships of those teams and all of its match results, while every row of
another season survives. -/
theorem delete_season_spec (db : DB) (name : String)
    (huniq : (db.seasons.map (fun s => s.name)).Nodup) :
    ((delete_season db name).2 = false ↔ ∀ s ∈ db.seasons, s.name ≠ name) ∧
    ((delete_season db name).2 = false → (delete_season db name).1 = db) ∧
    (delete_season db name).1.players = db.players ∧
    (∀ s, db.seasons.find? (fun s2 => s2.name == name) = some s →
      (∀ s2 ∈ (delete_season db name).1.seasons, s2.name ≠ name) ∧
      (∀ t ∈ (delete_season db name).1.teams, t.season_id ≠ s.id) ∧
      (∀ tm ∈ (delete_season db name).1.team_members,
        ∀ t ∈ db.teams, t.season_id = s.id → tm.team_id ≠ t.id) ∧
      (∀ mr ∈ (delete_season db name).1.match_results, mr.season_id ≠ s.id) ∧
      (∀ s2 ∈ db.seasons, s2.id ≠ s.id → s2 ∈ (delete_season db name).1.seasons) ∧
      (∀ t ∈ db.teams, t.season_id ≠ s.id → t ∈ (delete_season db name).1.teams) ∧
      (∀ mr ∈ db.match_results, mr.season_id ≠ s.id →
        mr ∈ (delete_season db name).1.match_results) ∧
      (∀ tm ∈ db.team_members, (∀ t ∈ db.teams, t.season_id = s.id → tm.team_id ≠ t.id) →
        tm ∈ (delete_season db name).1.team_members)) := by
  rcases hfind : db.seasons.find? (fun s2 => s2.name == name) with _ | s
  · have hnone : ∀ s ∈ db.seasons, s.name ≠ name := by
      intro s hs
      have := List.find?_eq_none.mp hfind s hs
      simpa using this
    have heqn : delete_season db name = (db, false) := by
      simp only [delete_season, hfind]
    refine ⟨?_, ?_, ?_, ?_⟩
    · rw [heqn]
      exact ⟨fun _ => hnone, fun _ => rfl⟩
    · intro _
      rw [heqn]
    · rw [heqn]
    · intro s hs
      rw [hfind] at hs
      exact Option.noConfusion hs
  · have hsmem : s ∈ db.seasons := List.mem_of_find?_eq_some hfind
    have hsname : s.name = name := by
      have := List.find?_some hfind
      simpa using this
    have heq : delete_season db name =
        ({ db with
            match_results := db.match_results.filter (fun mr => !(mr.season_id == s.id)),
            team_members := db.team_members.filter (fun tm =>
              !(((db.teams.filter (fun t => t.season_id == s.id)).map
                  (fun t => t.id)).contains tm.team_id)),
            teams := db.teams.filter (fun t => !(t.season_id == s.id)),
            seasons := db.seasons.filter (fun s2 => !(s2.id == s.id)) },
         true) := by
      simp only [delete_season, hfind]
    refine ⟨?_, ?_, ?_, ?_⟩
    · rw [heq]
      constructor
      · intro h
        exact Bool.noConfusion h
      · intro hall
        exact absurd hsname (hall s hsmem)
    · intro h
      rw [heq] at h
      exact Bool.noConfusion h
    · rw [heq]
    · intro s0 hs0
      rw [hfind] at hs0
      obtain rfl : s = s0 := Option.some.inj hs0
      rw [heq]
      refine ⟨?_, ?_, ?_, ?_, ?_, ?_, ?_, ?_⟩
      · intro s2 hs2
        rcases List.mem_filter.mp hs2 with ⟨hmem, hpred⟩
        intro hname
        have hs2s : s2 = s :=
          List.inj_on_of_nodup_map huniq hmem hsmem (by rw [hname, hsname])
        rw [hs2s] at hpred
        simp at hpred
      · intro t ht
        rcases List.mem_filter.mp ht with ⟨_, hpred⟩
        simpa using hpred
      · intro tm htm t ht hts
        rcases List.mem_filter.mp htm with ⟨_, hpred⟩
        intro hid
        have hb : ((db.teams.filter (fun t2 => t2.season_id == s.id)).map
            (fun t2 => t2.id)).contains tm.team_id = true := by
          rw [List.contains_eq_any_beq]
          simp only [List.any_eq_true, beq_iff_eq]
          exact ⟨t.id, List.mem_map.mpr ⟨t, List.mem_filter.mpr ⟨ht, by simp [hts]⟩, rfl⟩, hid⟩
        rw [hb] at hpred
        simp at hpred
      · intro mr hmr
        rcases List.mem_filter.mp hmr with ⟨_, hpred⟩
        simpa using hpred
      · intro s2 hs2 hid
        exact List.mem_filter.mpr ⟨hs2, by simpa using hid⟩
      · intro t ht hts
        exact List.mem_filter.mpr ⟨ht, by simpa using hts⟩
      · intro mr hmr hms
        exact List.mem_filter.mpr ⟨hmr, by simpa using hms⟩
      · intro tm htm hall
        refine List.mem_filter.mpr ⟨htm, ?_⟩
        simp only [List.contains_eq_any_beq]
        have hany : (((db.teams.filter (fun t2 => t2.season_id == s.id)).map
            (fun t2 => t2.id)).any (fun x => tm.team_id == x)) = false := by
          rw [List.any_eq_false]
          intro x hx
          simp only [beq_iff_eq]
          intro hxeq
          rcases List.mem_map.mp hx with ⟨t, htf, hid⟩
          rcases List.mem_filter.mp htf with ⟨htmem, htpred⟩
          have hts : t.season_id = s.id := by simpa using htpred
          exact hall t htmem hts (by rw [hxeq, ← hid])
        rw [hany]
        rfl

/-- Witness for C6: deleting the only season of a concrete populated state
leaves the player rows untouched. -/
theorem delete_season_spec_witness :
    (delete_season (⟨[⟨1, "S1", true⟩], [⟨"001", 42, none⟩], [⟨1, "T", 1⟩], [⟨1, "001"⟩],
        [⟨1, 1, "001", 1, 2, 3⟩], 2, 2, 2⟩ : DB) "S1").1.players =
      (⟨[⟨1, "S1", true⟩], [⟨"001", 42, none⟩], [⟨1, "T", 1⟩], [⟨1, "001"⟩],
        [⟨1, 1, "001", 1, 2, 3⟩], 2, 2, 2⟩ : DB).players :=
  (delete_season_spec (⟨[⟨1, "S1", true⟩], [⟨"001", 42, none⟩], [⟨1, "T", 1⟩], [⟨1, "001"⟩],
      [⟨1, 1, "001", 1, 2, 3⟩], 2, 2, 2⟩ : DB) "S1" (by decide)).2.2.1

/-! ## List lemmas for the SQL joins and groupings -/

theorem filter_map_eq_flatMap_if {α β : Type} (l : List α) (q : α → Bool) (g : α → β) :
    (l.filter q).map g = l.flatMap (fun a => if q a then [g a] else []) := by
  induction l with
  | nil => rfl
  | cons a l ih =>
      by_cases h : q a
      · simp [List.filter_cons, h, ih]
      · simp [List.filter_cons, h, ih]

theorem flatMap_filter_of_nil {α β : Type} (l : List α) (c : α → Bool) (F : α → List β)
    (h : ∀ a, c a = false → F a = []) :
    (l.filter c).flatMap F = l.flatMap F := by
  induction l with
  | nil => rfl
  | cons a l ih =>
      by_cases hc : c a
      · simp [List.filter_cons, hc, ih]
      · rw [List.filter_cons, if_neg (by simp [hc])]
        rw [List.flatMap_cons, h a (by simpa using hc), ih]
        rfl

theorem filter_key_pair_singleton {α κ : Type} [BEq κ] [LawfulBEq κ] {l : List α}
    {key : α → κ} (hnd : (l.map key).Nodup) {g : α → Bool} {x : κ} {p : α}
    (hp : p ∈ l) (hx : key p = x) (hg : g p = true) :
    l.filter (fun q => key q == x && g q) = [p] := by
  induction l with
  | nil => cases hp
  | cons a l ih =>
      rw [List.map_cons, List.nodup_cons] at hnd
      rcases List.mem_cons.mp hp with rfl | hpl
      · rw [List.filter_cons, if_pos (by simp [hx, hg])]
        have hrest : l.filter (fun q => key q == x && g q) = [] := by
          rw [List.filter_eq_nil_iff]
          intro q hq hcontra
          rw [Bool.and_eq_true, beq_iff_eq] at hcontra
          exact hnd.1 (by rw [hx, ← hcontra.1]; exact List.mem_map_of_mem key hq)
        rw [hrest]
      · have hax : ¬ (key a = x) := by
          intro haxx
          exact hnd.1 (by rw [haxx, ← hx]; exact List.mem_map_of_mem key hpl)
        rw [List.filter_cons, if_neg (by simp [hax])]
        exact ih hnd.2 hpl

theorem filter_key_singleton {α κ : Type} [BEq κ] [LawfulBEq κ] {l : List α}
    {key : α → κ} (hnd : (l.map key).Nodup) {x : κ} {p : α}
    (hp : p ∈ l) (hx : key p = x) :
    l.filter (fun q => key q == x) = [p] := by
  induction l with
  | nil => cases hp
  | cons a l ih =>
      rw [List.map_cons, List.nodup_cons] at hnd
      rcases List.mem_cons.mp hp with rfl | hpl
      · rw [List.filter_cons, if_pos (by simp [hx])]
        have hrest : l.filter (fun q => key q == x) = [] := by
          rw [List.filter_eq_nil_iff]
          intro q hq hcontra
          rw [beq_iff_eq] at hcontra
          exact hnd.1 (by rw [hx, ← hcontra]; exact List.mem_map_of_mem key hq)
        rw [hrest]
      · have hax : ¬ (key a = x) := by
          intro haxx
          exact hnd.1 (by rw [haxx, ← hx]; exact List.mem_map_of_mem key hpl)
        rw [List.filter_cons, if_neg (by simp [hax])]
        exact ih hnd.2 hpl

theorem any_eq_not_isEmpty_filter {α : Type} (l : List α) (p : α → Bool) :
    l.any p = !(l.filter p).isEmpty := by
  induction l with
  | nil => rfl
  | cons a l ih =>
      by_cases h : p a
      · simp [List.filter_cons, h]
      · simp [List.filter_cons, h, ih]

theorem ownedName_iff {players : List Player} {ing pid : String} :
    ownedName players ing pid = true ↔
      ∃ p ∈ players, p.id = pid ∧ p.ingame_name = some ing := by
  simp [ownedName, List.any_eq_true, Bool.and_eq_true, beq_iff_eq]

/-- Under the schema's key constraints, the joined performance rows carrying
season name `s.name` are exactly the player's match rows of season `s`,
each paired with `s`. -/
theorem perfRows_filter_name {db : DB} {ing : String}
    (hpn : (db.players.map (fun p => p.id)).Nodup)
    (hsn : (db.seasons.map (fun s => s.id)).Nodup)
    (hnn : (db.seasons.map (fun s => s.name)).Nodup)
    {s : Season} (hs : s ∈ db.seasons) :
    (perfRows db ing).filter (fun x => x.1.name == s.name) =
      (playerSeasonRows db ing s.id).map (fun mr => (s, mr)) := by
  simp only [perfRows, playerSeasonRows]
  rw [List.filter_flatMap, filter_map_eq_flatMap_if]
  refine congrArg (fun F => db.match_results.flatMap F) (funext (fun mr => ?_))
  by_cases how : ownedName db.players ing mr.player_id = true
  · obtain ⟨p, hpmem, hpid, hping⟩ := ownedName_iff.mp how
    have hfp : db.players.filter
        (fun p2 => p2.id == mr.player_id && p2.ingame_name == some ing) = [p] :=
      filter_key_pair_singleton hpn hpmem hpid (by simp [hping])
    rw [hfp]
    simp only [List.flatMap_cons, List.flatMap_nil, List.append_nil]
    by_cases hseq : mr.season_id = s.id
    · have hfs : db.seasons.filter (fun s2 => s2.id == mr.season_id) = [s] :=
        filter_key_singleton hsn hs hseq.symm
      rw [hfs]
      simp [how, hseq]
    · have hnil : ((db.seasons.filter (fun s2 => s2.id == mr.season_id)).map
          (fun s2 => (s2, mr))).filter (fun x => x.1.name == s.name) = [] := by
        rw [List.filter_eq_nil_iff]
        intro x hx hcontra
        rcases List.mem_map.mp hx with ⟨s2, hs2f, rfl⟩
        rcases List.mem_filter.mp hs2f with ⟨hs2mem, hs2id⟩
        have hname : s2.name = s.name := by simpa using hcontra
        have hs2s : s2 = s := List.inj_on_of_nodup_map hnn hs2mem hs hname
        rw [hs2s] at hs2id
        exact hseq ((by simpa using hs2id : s.id = mr.season_id)).symm
      rw [hnil, if_neg (by simp [hseq])]
  · have hfp : db.players.filter
        (fun p2 => p2.id == mr.player_id && p2.ingame_name == some ing) = [] := by
      rw [List.filter_eq_nil_iff]
      intro p2 hp2 hcontra
      rw [Bool.and_eq_true, beq_iff_eq, beq_iff_eq] at hcontra
      exact how (ownedName_iff.mpr ⟨p2, hp2, hcontra.1, hcontra.2⟩)
    rw [hfp, if_neg ?_]
    · rfl
    · intro hc
      rw [Bool.and_eq_true] at hc
      exact how hc.2

theorem perfGroupNames_eq {db : DB} {ing : String}
    (hnn : (db.seasons.map (fun s => s.name)).Nodup)
    (hsorted : db.seasons.Pairwise (fun a b => a.id ≤ b.id)) :
    perfGroupNames db ing =
      (db.seasons.filter (fun s =>
        (perfRows db ing).any (fun x => x.1.name == s.name))).map (fun s => s.name) := by
  simp only [perfGroupNames]
  rw [List.mergeSort_of_sorted (hsorted.imp (fun h => by simpa using h))]
  rw [List.Nodup.dedup hnn]
  rw [List.filter_map]
  rfl

theorem insertResults_filter_map (sid : Nat) (q : String → Bool) :
    ∀ (nid : Nat) (rs : List MatchEntry),
      ((insertResults sid nid rs).filter
        (fun mr => mr.season_id == sid && q mr.player_id)).map
          (fun mr => (mr.kills, mr.deaths, mr.assists)) =
      (rs.filter (fun r => q r.player_id)).map (fun r => (r.kills, r.deaths, r.assists))
  | _, [] => rfl
  | nid, r :: rs => by
      simp only [insertResults, List.filter_cons]
      by_cases h : q r.player_id
      · rw [if_pos (by simp [h]), if_pos (by simpa using h)]
        simp only [List.map_cons]
        rw [insertResults_filter_map sid q (nid + 1) rs]
      · rw [if_neg (by simp [h]), if_neg (by simpa using h)]
        exact insertResults_filter_map sid q (nid + 1) rs

/-- **C8.** Under the schema's key constraints (distinct player ids,
distinct season ids and names, seasons listed in id = creation order),
`get_player_performance ing` returns exactly one row per season in which a
player named `ing` has match rows, in season creation order, and each row's
totals are the arithmetic sums of that player's kills/deaths/assists rows of
that season; moreover `record_match` extends those per-season rows by
exactly the submitted entries of that player, so the sums equal the sums of
the values submitted via `record_match`. -/
theorem performance_spec (db : DB) (ing : String)
    (hpn : (db.players.map (fun p => p.id)).Nodup)
    (hsn : (db.seasons.map (fun s => s.id)).Nodup)
    (hnn : (db.seasons.map (fun s => s.name)).Nodup)
    (hsorted : db.seasons.Pairwise (fun a b => a.id ≤ b.id)) :
    get_player_performance db ing =
      (db.seasons.filter (fun s => !(playerSeasonRows db ing s.id).isEmpty)).map
        (fun s =>
          (⟨s.name,
            ((playerSeasonRows db ing s.id).map (fun mr => mr.kills)).sum,
            ((playerSeasonRows db ing s.id).map (fun mr => mr.deaths)).sum,
            ((playerSeasonRows db ing s.id).map (fun mr => mr.assists)).sum⟩ : PerfRow)) ∧
    (∀ (sid : Nat) (rs : List MatchEntry),
      (playerSeasonRows (record_match db sid rs) ing sid).map
        (fun mr => (mr.kills, mr.deaths, mr.assists)) =
      (playerSeasonRows db ing sid).map (fun mr => (mr.kills, mr.deaths, mr.assists)) ++
        (rs.filter (fun r => ownedName db.players ing r.player_id)).map
          (fun r => (r.kills, r.deaths, r.assists))) := by
  constructor
  · simp only [get_player_performance]
    rw [perfGroupNames_eq hnn hsorted]
    rw [List.map_map]
    have hfil : db.seasons.filter
        (fun s => (perfRows db ing).any (fun x => x.1.name == s.name)) =
        db.seasons.filter (fun s => !(playerSeasonRows db ing s.id).isEmpty) := by
      apply List.filter_congr
      intro s hsmem
      rw [any_eq_not_isEmpty_filter, perfRows_filter_name hpn hsn hnn hsmem]
      generalize playerSeasonRows db ing s.id = L
      cases L <;> rfl
    rw [hfil]
    apply List.map_congr_left
    intro s hsmem
    rcases List.mem_filter.mp hsmem with ⟨hsm, _⟩
    simp only [Function.comp_apply]
    rw [perfRows_filter_name hpn hsn hnn hsm]
    simp only [List.map_map]
    rfl
  · intro sid rs
    have hmr : (record_match db sid rs).match_results =
        db.match_results ++ insertResults sid db.next_match_id rs := rfl
    have hpl : (record_match db sid rs).players = db.players := rfl
    simp only [playerSeasonRows]
    rw [hmr, hpl, List.filter_append, List.map_append]
    congr 1
    exact insertResults_filter_map sid (ownedName db.players ing) db.next_match_id rs

/-- Witness for C8: the performance rows of `sampleDB` for the shared name
"Ace". -/
theorem performance_spec_witness :
    get_player_performance sampleDB "Ace" =
      (sampleDB.seasons.filter (fun s => !(playerSeasonRows sampleDB "Ace" s.id).isEmpty)).map
        (fun s =>
          (⟨s.name,
            ((playerSeasonRows sampleDB "Ace" s.id).map (fun mr => mr.kills)).sum,
            ((playerSeasonRows sampleDB "Ace" s.id).map (fun mr => mr.deaths)).sum,
            ((playerSeasonRows sampleDB "Ace" s.id).map (fun mr => mr.assists)).sum⟩ : PerfRow)) :=
  (performance_spec sampleDB "Ace" (by decide) (by decide) (by decide)
    (by decide)).1

/-! ## Leaderboard (claims C9, C10) -/

theorem filter_eq_flatMap_if {α : Type} (l : List α) (q : α → Bool) :
    l.filter q = l.flatMap (fun a => if q a then [a] else []) := by
  induction l with
  | nil => rfl
  | cons a l ih =>
      by_cases h : q a
      · simp [List.filter_cons, h, ih]
      · simp [List.filter_cons, h, ih]

/-- Under distinct player ids, the joined leaderboard rows grouped under the
name `nm` project to exactly the match rows of season `sid` owned by a
player named `nm`. -/
theorem lbRows_filter_name {db : DB} {sid : Nat}
    (hpn : (db.players.map (fun p => p.id)).Nodup) (nm : String) :
    ((lbRows db sid).filter (fun x => x.1.ingame_name == some nm)).map (fun x => x.2) =
      playerSeasonRows db nm sid := by
  simp only [lbRows, playerSeasonRows]
  rw [List.filter_flatMap, List.map_flatMap, filter_eq_flatMap_if]
  refine congrArg (fun F => db.match_results.flatMap F) (funext (fun mr => ?_))
  by_cases hsea : mr.season_id = sid
  · rw [if_pos (by simp [hsea] : (mr.season_id == sid) = true)]
    by_cases how : ownedName db.players nm mr.player_id = true
    · obtain ⟨p, hpmem, hpid, hping⟩ := ownedName_iff.mp how
      have hfp : db.players.filter
          (fun p2 => p2.id == mr.player_id && p2.ingame_name.isSome) = [p] :=
        filter_key_pair_singleton hpn hpmem hpid (by simp [hping])
      rw [hfp]
      simp [hping, hsea, how]
    · have hnil : ((db.players.filter
          (fun p2 => p2.id == mr.player_id && p2.ingame_name.isSome)).map
            (fun p => (p, mr))).filter (fun x => x.1.ingame_name == some nm) = [] := by
        rw [List.filter_eq_nil_iff]
        intro x hx hcontra
        rcases List.mem_map.mp hx with ⟨p, hpf, rfl⟩
        rcases List.mem_filter.mp hpf with ⟨hpmem, hppred⟩
        rw [Bool.and_eq_true, beq_iff_eq] at hppred
        have hname : p.ingame_name = some nm := by simpa using hcontra
        exact how (ownedName_iff.mpr ⟨p, hpmem, hppred.1, hname⟩)
      rw [hnil, if_neg ?_]
      · rfl
      · intro hc
        rw [Bool.and_eq_true] at hc
        exact how hc.2
  · rw [if_neg (by simp [hsea]), if_neg (by simp [hsea])]
    rfl

/-- Restricting `match_results` to the rows of season `sid` does not change
the joined leaderboard rows of season `sid`. -/
theorem lbRows_scope (db : DB) (sid : Nat) :
    lbRows { db with match_results :=
        db.match_results.filter (fun mr => mr.season_id == sid) } sid = lbRows db sid := by
  simp only [lbRows]
  exact flatMap_filter_of_nil _ _ _ (fun mr hmr => by rw [if_neg (by simp [hmr])])

/-- Dropping the match rows whose player has no (non-null) `ingame_name`
does not change the joined leaderboard rows. -/
theorem lbRows_named_scope (db : DB) (sid : Nat) :
    lbRows { db with match_results := (db.match_results.filter
        (fun mr => db.players.any (fun p => p.id == mr.player_id && p.ingame_name.isSome))) }
      sid = lbRows db sid := by
  simp only [lbRows]
  apply flatMap_filter_of_nil
  intro mr hmr
  by_cases hsea : mr.season_id = sid
  · rw [if_pos (by simp [hsea])]
    have : db.players.filter
        (fun p => p.id == mr.player_id && p.ingame_name.isSome) = [] := by
      rw [List.filter_eq_nil_iff]
      intro p hp hpred
      have hany : db.players.any
          (fun p2 => p2.id == mr.player_id && p2.ingame_name.isSome) = true :=
        List.any_eq_true.mpr ⟨p, hp, hpred⟩
      rw [hany] at hmr
      exact Bool.noConfusion hmr
    rw [this]
    rfl
  · rw [if_neg (by simp [hsea])]

/-- Every leaderboard row is the aggregation of one group key of `lbNames`. -/
theorem lb_mem_structure {db : DB} {sact : Season}
    (hact : get_active_season db = some sact) :
    ∀ r ∈ get_leaderboard db, ∃ nm ∈ lbNames db sact.id,
      r = ⟨nm,
        (((lbRows db sact.id).filter (fun x => x.1.ingame_name == some nm)).map
          (fun x => x.2.kills)).sum,
        (((lbRows db sact.id).filter (fun x => x.1.ingame_name == some nm)).map
          (fun x => x.2.deaths)).sum⟩ := by
  intro r hr
  simp only [get_leaderboard, hact] at hr
  rw [List.mem_mergeSort] at hr
  rcases List.mem_filter.mp hr with ⟨hrmem, _⟩
  rcases List.mem_map.mp hrmem with ⟨nm, hnm, hG⟩
  exact ⟨nm, hnm, hG.symm⟩

/-- The totals of every leaderboard row are the sums over the match rows of
the active season owned by any player carrying the row's name. -/
theorem lb_row_totals {db : DB} {sact : Season}
    (hpn : (db.players.map (fun p => p.id)).Nodup)
    (hact : get_active_season db = some sact) :
    ∀ r ∈ get_leaderboard db,
      r.total_kills =
        ((playerSeasonRows db r.ingame_name sact.id).map (fun mr => mr.kills)).sum ∧
      r.total_deaths =
        ((playerSeasonRows db r.ingame_name sact.id).map (fun mr => mr.deaths)).sum := by
  intro r hr
  obtain ⟨nm, hnm, rfl⟩ := lb_mem_structure hact r hr
  dsimp only
  constructor
  · rw [← lbRows_filter_name hpn nm, List.map_map]
    rfl
  · rw [← lbRows_filter_name hpn nm, List.map_map]
    rfl

/-- **C9.** `get_leaderboard` is scoped to the active season only (removing
every other season's match rows changes nothing, and with no active season
it is empty); every returned row has strictly positive total deaths, and
any name whose death total in the active season is zero is absent from the
result (even with nonzero kills); and the result is ordered by
kills/deaths descending. -/
theorem leaderboard_spec (db : DB)
    (hpn : (db.players.map (fun p => p.id)).Nodup) :
    (get_active_season db = none → get_leaderboard db = []) ∧
    (∀ sact, get_active_season db = some sact →
      (get_leaderboard { db with match_results :=
          (db.match_results.filter (fun mr => mr.season_id == sact.id)) } =
        get_leaderboard db) ∧
      (∀ r ∈ get_leaderboard db, 0 < r.total_deaths) ∧
      (∀ nm, ((playerSeasonRows db nm sact.id).map (fun mr => mr.deaths)).sum = 0 →
        ∀ r ∈ get_leaderboard db, r.ingame_name ≠ nm) ∧
      (get_leaderboard db).Pairwise (fun a b => b.ratio ≤ a.ratio)) := by
  constructor
  · intro h
    simp only [get_leaderboard, h]
  · intro sact hact
    have hdeaths : ∀ r ∈ get_leaderboard db, 0 < r.total_deaths := by
      intro r hr
      simp only [get_leaderboard, hact] at hr
      rw [List.mem_mergeSort] at hr
      rcases List.mem_filter.mp hr with ⟨_, hpred⟩
      simpa using hpred
    refine ⟨?_, hdeaths, ?_, ?_⟩
    · have hact2 : get_active_season { db with match_results :=
          (db.match_results.filter (fun mr => mr.season_id == sact.id)) } = some sact := hact
      simp only [get_leaderboard, hact, hact2, lbNames]
      rw [lbRows_scope]
    · intro nm hzero r hr hname
      have htot := (lb_row_totals hpn hact r hr).2
      have hpos := hdeaths r hr
      rw [htot, hname, hzero] at hpos
      exact lt_irrefl 0 hpos
    · simp only [get_leaderboard, hact]
      refine (List.sorted_mergeSort ?_ ?_ _).imp (fun h => of_decide_eq_true h)
      · intro a b c h1 h2
        exact decide_eq_true (le_trans (of_decide_eq_true h2) (of_decide_eq_true h1))
      · intro a b
        rcases le_total b.ratio a.ratio with h | h
        · simp [h]
        · simp [h]

/-- Witness for C9 at `sampleDB`: restricting the match rows to the active
season leaves the leaderboard unchanged. -/
theorem leaderboard_spec_witness :
    get_leaderboard { sampleDB with match_results :=
        (sampleDB.match_results.filter
          (fun mr => mr.season_id == (⟨1, "S", true⟩ : Season).id)) } =
      get_leaderboard sampleDB :=
  ((leaderboard_spec sampleDB (by decide)).2 ⟨1, "S", true⟩ (by decide)).1

theorem nodup_map_name_of_groups {names : List String} (hnd : names.Nodup)
    (G : String → LbRow) (hG : ∀ nm, (G nm).ingame_name = nm) (pred : LbRow → Bool)
    (le : LbRow → LbRow → Bool) :
    ((((names.map G).filter pred).mergeSort le).map (fun r => r.ingame_name)).Nodup := by
  have hperm := (List.mergeSort_perm ((names.map G).filter pred) le).map
    (fun r => r.ingame_name)
  rw [List.Perm.nodup_iff hperm]
  have hsub : List.Sublist (((names.map G).filter pred).map (fun r => r.ingame_name))
      ((names.map G).map (fun r => r.ingame_name)) :=
    List.Sublist.map (fun r => r.ingame_name) (List.filter_sublist (names.map G))
  refine List.Nodup.sublist hsub ?_
  rw [List.map_map]
  have h2 : names.map ((fun r : LbRow => r.ingame_name) ∘ G) = names := by
    have h3 := List.map_congr_left (l := names)
      (f := (fun r : LbRow => r.ingame_name) ∘ G) (g := fun a => a) (fun a _ => hG a)
    rw [h3]
    simp
  rw [h2]
  exact hnd

/-- **C10.** `get_leaderboard` aggregates by in-game name, not by player id:
dropping the match rows of players with NULL `ingame_name` changes nothing
(they are excluded regardless of their stats); each returned name labels a
single merged row; every returned name belongs to an actual player row; and
each row's totals sum the stats of every player sharing that name in the
active season. -/
theorem leaderboard_merge_by_name (db : DB)
    (hpn : (db.players.map (fun p => p.id)).Nodup) :
    ∀ sact, get_active_season db = some sact →
      (get_leaderboard { db with match_results := (db.match_results.filter
          (fun mr => db.players.any
            (fun p => p.id == mr.player_id && p.ingame_name.isSome))) } =
        get_leaderboard db) ∧
      ((get_leaderboard db).map (fun r => r.ingame_name)).Nodup ∧
      (∀ r ∈ get_leaderboard db, ∃ p ∈ db.players, p.ingame_name = some r.ingame_name) ∧
      (∀ r ∈ get_leaderboard db,
        r.total_kills =
          ((playerSeasonRows db r.ingame_name sact.id).map (fun mr => mr.kills)).sum ∧
        r.total_deaths =
          ((playerSeasonRows db r.ingame_name sact.id).map (fun mr => mr.deaths)).sum) := by
  intro sact hact
  refine ⟨?_, ?_, ?_, lb_row_totals hpn hact⟩
  · have hact2 : get_active_season { db with match_results := (db.match_results.filter
        (fun mr => db.players.any
          (fun p => p.id == mr.player_id && p.ingame_name.isSome))) } = some sact := hact
    simp only [get_leaderboard, hact, hact2, lbNames]
    rw [lbRows_named_scope]
  · simp only [get_leaderboard, hact]
    exact nodup_map_name_of_groups
      (by simp only [lbNames]; exact List.nodup_dedup _) _ (fun nm => rfl) _ _
  · intro r hr
    obtain ⟨nm, hnm, rfl⟩ := lb_mem_structure hact r hr
    simp only [lbNames] at hnm
    have hnm2 := List.mem_dedup.mp hnm
    rcases List.mem_filterMap.mp hnm2 with ⟨x, hx, hxn⟩
    have hx1 : x.1 ∈ db.players := by
      simp only [lbRows] at hx
      rcases List.mem_flatMap.mp hx with ⟨mr, _, hinner⟩
      by_cases hsea : mr.season_id = sact.id
      · rw [if_pos (by simp [hsea])] at hinner
        rcases List.mem_map.mp hinner with ⟨p, hpf, rfl⟩
        exact List.mem_of_mem_filter hpf
      · rw [if_neg (by simp [hsea])] at hinner
        exact absurd hinner (List.not_mem_nil x)
    exact ⟨x.1, hx1, hxn⟩

/-- Witness for C10 at `sampleDB`: the two players sharing "Ace" produce a
single row (the output names are distinct). -/
theorem leaderboard_merge_by_name_witness :
    ((get_leaderboard sampleDB).map (fun r => r.ingame_name)).Nodup :=
  (leaderboard_merge_by_name sampleDB (by decide) ⟨1, "S", true⟩ (by decide)).2.1
